import Mathlib

/-!
Verification development for the cyverse-irods-proxy plugin core
(`subst_env_var.c` / `plugin_tools.c` / `bucket_mapper.c` / `user_mapper.c`).

The C code is embedded shallowly:
* C strings are `List Char` (NUL-free by convention; the NUL terminator is
  implicit and re-appears explicitly only where the code writes one).
* The fixed 1024-byte destination buffers are total functions `Nat → Char`;
  a zero-filled buffer (`static` storage, `{0}` resets) is `freshBuf`.
* `subst_env_var` is modelled as the exact sequence of byte writes
  (position, byte) the C loop performs, so claims about truncation,
  unwritten gaps and embedded NUL bytes can be stated faithfully.
* The process environment is a parameter `List Char → Option (List Char)`
  (getenv), and the cJSON collaborator is an inductive JSON tree; the two
  `init` functions take the already-parsed tree, mirroring the fact that
  parsing is an external collaborator.
-/

namespace DTS

/-- `MAX_STR_LEN` from the C sources. -/
def MAX_STR_LEN : Nat := 1024

/-- `MAX_NUM_MAPPINGS` from the C sources. -/
def MAX_NUM_MAPPINGS : Nat := 8

/-- The NUL byte. -/
def nulC : Char := Char.ofNat 0

/-- A fixed-size C byte buffer, modelled as a total function from offsets
to bytes.  Offsets at and beyond the real 1024-byte extent are carried
along but only offsets written or read by the modelled code matter. -/
def Buffer : Type := Nat → Char

/-- All-zero buffer: the initial state of the `static ... = {0}` storage. -/
def freshBuf : Buffer := fun _ => nulC

/-- The write log of one `memcpy(&subst[p], src, len)`: bytes of `cs`
written at consecutive offsets starting at `p`. -/
def writeSeg (p : Nat) : List Char → List (Nat × Char)
  | [] => []
  | c :: cs => (p, c) :: writeSeg (p + 1) cs

/-- Apply a chronological write log to a buffer. -/
def applyWrites (b : Buffer) (ws : List (Nat × Char)) : Buffer :=
  ws.foldl (fun bb pc => fun i => if i = pc.1 then pc.2 else bb i) b

/-- Read a C string out of a buffer: bytes from offset 0 up to (not
including) the first NUL, looking at most `n` bytes. -/
def readCStrN : Buffer → Nat → List Char
  | _, 0 => []
  | b, n + 1 => if b 0 == nulC then [] else b 0 :: readCStrN (fun j => b (j + 1)) n

/-- `strncmp(key, buf, n) == 0` for a NUL-terminated key `k` compared
against the bytes of buffer `b`: equal as C strings within the first `n`
bytes. -/
def strncmpEq : Buffer → List Char → Nat → Bool
  | _, _, 0 => true
  | b, [], _ + 1 => b 0 == nulC
  | b, c :: k, n + 1 =>
    if b 0 == c then
      (if c == nulC then true else strncmpEq (fun j => b (j + 1)) k n)
    else false

/-- `strstr`: index of the first occurrence of `pat` in the list, if any. -/
def findStr (pat : List Char) : List Char → Option Nat
  | [] => if pat.isPrefixOf ([] : List Char) then some 0 else none
  | c :: tl =>
    if pat.isPrefixOf (c :: tl) then some 0
    else (findStr pat tl).map (fun i => i + 1)

/-- The needle `"${"`. -/
def dollarBrace : List Char := ['$', '{']

/-- The loop of `subst_env_var` (subst_env_var.c:27-61, identical copy in
plugin_tools.c:73-108).  Arguments after `maxLen`: remaining fuel (the C
loop strictly advances `s_pos` by at least 3 or to the end each
iteration, so fuel `s.length + 1` is never exhausted), `s_pos`,
`subst_pos`.  Returns the chronological write log into `subst` and the
final `subst_pos`.  Notes kept faithful to the C:
* `env_var_name_len = end_bracket - begin_bracket - 1`, and
  `strlcpy(env_var_name, begin_bracket + 2, env_var_name_len)` copies only
  `env_var_name_len - 1` characters plus a NUL terminator, so the looked-up
  name is exactly the text strictly between the brackets;
* in the getenv-miss branch the code memcpys `env_var_name_len` bytes,
  i.e. the bare name followed by one NUL byte, while advancing `subst_pos`
  by `env_var_name_len + 2`;
* each `memcpy` writes its whole segment regardless of `maxLen`; the
  `subst_pos < max_len` test happens only at the head of the loop;
* in the unclosed-bracket and no-placeholder branches the loop terminates
  after the verbatim copy because `s_pos` is set to `s_len`, so the model
  returns directly. -/
def substLoop (env : List Char → Option (List Char)) (s : List Char) (maxLen : Nat) :
    Nat → Nat → Nat → List (Nat × Char) × Nat
  | 0, _, substPos => ([], substPos)
  | fuel + 1, sPos, substPos =>
    if sPos < s.length ∧ substPos < maxLen then
      match findStr dollarBrace (s.drop sPos) with
      | some bOff =>
        let b := sPos + bOff
        match findStr [ '}' ] (s.drop b) with
        | some eOff =>
          let seg := (s.drop sPos).take bOff
          let name := (s.drop (b + 2)).take (eOff - 2)
          match env name with
          | some v =>
            let rest := substLoop env s maxLen fuel (b + eOff + 1) (substPos + bOff + v.length)
            (writeSeg substPos seg ++ writeSeg (substPos + bOff) v ++ rest.1, rest.2)
          | none =>
            let rest := substLoop env s maxLen fuel (b + eOff + 1) (substPos + bOff + eOff + 1)
            (writeSeg substPos seg ++ writeSeg (substPos + bOff) (name ++ [nulC]) ++ rest.1, rest.2)
        | none =>
          (writeSeg substPos (s.drop sPos), substPos + (s.length - sPos))
      | none =>
        (writeSeg substPos (s.drop sPos), substPos + (s.length - sPos))
    else ([], substPos)

/-- `subst_env_var` (subst_env_var.c:15-63): the pre-scan length checks,
then the copy loop.  `none` models the non-zero error return (in which
case the C function has written nothing); `some (log, fin)` models the
zero return, with `log` the complete write log into `subst` and `fin`
the final `subst_pos`. -/
def subst_env_var (env : List Char → Option (List Char)) (s : List Char) (maxLen : Nat) :
    Option (List (Nat × Char) × Nat) :=
  if maxLen > MAX_STR_LEN then none
  else if s.length > MAX_STR_LEN then none
  else some (substLoop env s maxLen (s.length + 1) 0 0)

/-- The result of `subst_env_var` into a zero-filled destination buffer,
read back as a C string (how every caller in the repo consumes it). -/
def subst_result (env : List Char → Option (List Char)) (s : List Char) (maxLen : Nat) :
    Option (List Char) :=
  (subst_env_var env s maxLen).map
    (fun r => readCStrN (applyWrites freshBuf r.1) MAX_STR_LEN)

/-! ## The cJSON collaborator

JSON parsing is an external collaborator; the mappers only consume the
parsed tree through the cJSON accessors modelled here.  Object children
are kept in document order as key/value pairs. -/

/-- A parsed cJSON tree. -/
inductive CJson where
  | jnull
  | jbool (b : Bool)
  | jnum (n : Int)
  | jstr (s : List Char)
  | jarr (items : List CJson)
  | jobj (fields : List (List Char × CJson))

/-- `cJSON_IsObject`. -/
def cJSON_IsObject : CJson → Bool
  | .jobj _ => true
  | _ => false

/-- `cJSON_IsString`. -/
def cJSON_IsString : CJson → Bool
  | .jstr _ => true
  | _ => false

/-- `cJSON_GetStringValue` (only ever called after an `IsString` check). -/
def cJSON_GetStringValue : CJson → List Char
  | .jstr s => s
  | _ => []

/-- `cJSON_GetArraySize`: the number of children of an object or array
node (0 for leaves). -/
def cJSON_GetArraySize : CJson → Nat
  | .jobj fs => fs.length
  | .jarr items => items.length
  | _ => 0

/-- The key/value pairs iterated by `cJSON_ArrayForEach` over an object.
Non-object configurations never reach the iteration in any theorem below
(for an array child the C reads the NULL `item->string`, which is outside
the model; every theorem over init therefore assumes an object
configuration, matching the spec). -/
def childPairs : CJson → List (List Char × CJson)
  | .jobj fs => fs
  | _ => []

/-- ASCII `tolower` in the C locale, as used by cJSON's
case-insensitive name comparison. -/
def lowerC (c : Char) : Char :=
  if 65 ≤ c.toNat ∧ c.toNat ≤ 90 then Char.ofNat (c.toNat + 32) else c

/-- cJSON case-insensitive name equality. -/
def keyEqCI (a b : List Char) : Bool := a.map lowerC == b.map lowerC

/-- `cJSON_GetObjectItem` (case-insensitive): first child whose key
matches. -/
def getItemCI (j : CJson) (key : List Char) : Option CJson :=
  match j with
  | .jobj fs => (fs.find? (fun kv => keyEqCI kv.1 key)).map (fun kv => kv.2)
  | _ => none

/-- `cJSON_HasObjectItem` (wraps the case-insensitive lookup). -/
def hasItemCI (j : CJson) (key : List Char) : Bool := (getItemCI j key).isSome

/-- `cJSON_GetObjectItemCaseSensitive`. -/
def getItemCS (j : CJson) (key : List Char) : Option CJson :=
  match j with
  | .jobj fs => (fs.find? (fun kv => kv.1 == key)).map (fun kv => kv.2)
  | _ => none

/-- `cJSON_IsString` applied to a possibly-NULL item pointer
(`cJSON_IsString(NULL)` is false). -/
def isStringO : Option CJson → Bool
  | some j => cJSON_IsString j
  | none => false

/-- Distinct error outcomes of the plugin operations.  The C functions
all return the int 1 on failure; the outcomes are distinguished
observably by which `fprintf(stderr, ...)` site fired, which is what
this type records (the spec's error taxonomy, restricted to the kinds
these four files can produce). -/
inductive MapErr where
  | parseError
  | schemaError
  | capacityExceeded
  | notInit
  | notFound
deriving DecidableEq

/-! ## The bucket mapping table (bucket_mapper.c) -/

/-- One slot of `bucket_mappings_t.mappings`: two 1024-byte buffers. -/
structure BucketEntry where
  bucket : Buffer
  collection : Buffer

/-- The `static bucket_mappings_t global` state: the eight entry slots
(modelled as a total function; the C only ever touches indices below
`MAX_NUM_MAPPINGS`) and `num_mappings`. -/
structure BucketState where
  mappings : Nat → BucketEntry
  num_mappings : Nat

/-- A zeroed entry slot. -/
def emptyBucketEntry : BucketEntry := ⟨freshBuf, freshBuf⟩

/-- `(bucket_mappings_t){0}`: the zeroed global, also the initial state. -/
def emptyBucketState : BucketState := ⟨fun _ => emptyBucketEntry, 0⟩

/-- Point update of an entry-slot array. -/
def updAt {α : Type} (m : Nat → α) (i : Nat) (e : α) : Nat → α :=
  fun j => if j = i then e else m j

/-- One `subst_env_var(src, buf, MAX_STR_LEN)` call whose int result is
ignored by the caller (bucket_mapper.c:52-53): on failure nothing was
written, on success the write log lands in the buffer. -/
def applySubstTo (env : List Char → Option (List Char)) (src : List Char) (b : Buffer) :
    Buffer :=
  match subst_env_var env src MAX_STR_LEN with
  | none => b
  | some r => applyWrites b r.1

/-- The `cJSON_ArrayForEach` body of `bucket_mapping_init`
(bucket_mapper.c:44-55): `none` models the early `return 1` after the
string check fails (the caller has already reset `global`), `some m`
the fully iterated entry slots. -/
def bucketItemsLoop (env : List Char → Option (List Char)) :
    List (List Char × CJson) → Nat → (Nat → BucketEntry) → Option (Nat → BucketEntry)
  | [], _, m => some m
  | (key, val) :: rest, i, m =>
    if cJSON_IsString val then
      let e : BucketEntry :=
        { bucket := applySubstTo env key (m i).bucket
          collection := applySubstTo env (cJSON_GetStringValue val) (m i).collection }
      bucketItemsLoop env rest (i + 1) (updAt m i e)
    else none

/-- `bucket_mapping_init` (bucket_mapper.c:28-59) from the result of
`read_plugin_config_file` (its first statement) onward: `loaded = none`
models a NULL return from the loader.  `num_mappings` is assigned before
the capacity check; every failing branch resets `global` to `{0}`.
Returns the new `global` and `none` for the 0 return or the error kind
for the 1 return. -/
def bucket_mapping_init (loaded : Option CJson) (env : List Char → Option (List Char))
    (st : BucketState) : BucketState × Option MapErr :=
  match loaded with
  | none => (emptyBucketState, some .parseError)
  | some cfg =>
    let k := cJSON_GetArraySize cfg
    if k > MAX_NUM_MAPPINGS then (emptyBucketState, some .capacityExceeded)
    else
      match bucketItemsLoop env (childPairs cfg) 0 st.mappings with
      | some m => ({ mappings := m, num_mappings := k }, none)
      | none => (emptyBucketState, some .schemaError)

/-- The linear scan shared verbatim by `bucket_mapping_collection`,
`user_mapping_irods_username` and `user_mapping_s3_secret_key`:
`for (i = 0; i < num_mappings; ++i) if (!strncmp(key, keyBuf(i),
MAX_STR_LEN)) return valBuf(i);` — arguments are the current index and
the number of remaining entries. -/
def scanEntries (keyBuf valBuf : Nat → Buffer) (k : List Char) :
    Nat → Nat → Except MapErr (List Char)
  | _, 0 => .error .notFound
  | i, r + 1 =>
    if strncmpEq (keyBuf i) k MAX_STR_LEN then
      .ok (readCStrN (valBuf i) MAX_STR_LEN)
    else scanEntries keyBuf valBuf k (i + 1) r

/-- `bucket_mapping_collection` (bucket_mapper.c:79-93).  The C function
only reads `global` (it writes the out-parameter and returns an int), so
the embedding is a pure function of the state. -/
def bucket_mapping_collection (st : BucketState) (k : List Char) :
    Except MapErr (List Char) :=
  if st.num_mappings = 0 then .error .notInit
  else
    scanEntries (fun i => (st.mappings i).bucket) (fun i => (st.mappings i).collection)
      k 0 st.num_mappings

/-- `bucket_mapping_list` (bucket_mapper.c:61-77): the entries in slot
order, read back as C strings. -/
def bucket_mapping_list (st : BucketState) :
    Except MapErr (List (List Char × List Char)) :=
  if st.num_mappings = 0 then .error .notInit
  else .ok ((List.range st.num_mappings).map
    (fun i => (readCStrN (st.mappings i).bucket MAX_STR_LEN,
               readCStrN (st.mappings i).collection MAX_STR_LEN)))

/-- `bucket_mapping_close` (bucket_mapper.c:95-98): `global =
(bucket_mappings_t){0}; return 0;`. -/
def bucket_mapping_close (_st : BucketState) : BucketState × Int :=
  (emptyBucketState, 0)

/-! ## The user mapping table (user_mapper.c) -/

/-- One slot of `user_mappings_t.mappings`: three 1024-byte buffers. -/
structure UserEntry where
  s3_access_key_id : Buffer
  s3_secret_key : Buffer
  irods_username : Buffer

/-- The `static user_mappings_t global` state. -/
structure UserState where
  mappings : Nat → UserEntry
  num_mappings : Nat

/-- A zeroed user entry slot. -/
def emptyUserEntry : UserEntry := ⟨freshBuf, freshBuf, freshBuf⟩

/-- `(user_mappings_t){0}`. -/
def emptyUserState : UserState := ⟨fun _ => emptyUserEntry, 0⟩

/-- The key `"secret_key"`. -/
def secretKeyS : List Char := "secret_key".toList

/-- The key `"username"`. -/
def usernameS : List Char := "username".toList

/-- The per-item schema checks of `user_mapping_init`
(user_mapper.c:53-81), in source order: value is an object, has a
`secret_key` and a `username` member (case-insensitive lookups), and
both (case-sensitive lookups) are strings.  All five failure sites reset
`global` and return 1, observably the same schema error. -/
def userItemOk (it : CJson) : Bool :=
  cJSON_IsObject it &&
  hasItemCI it secretKeyS &&
  hasItemCI it usernameS &&
  isStringO (getItemCS it secretKeyS) &&
  isStringO (getItemCS it usernameS)

/-- `user_mapping_init` (user_mapper.c:29-92), taking the result of
`cJSON_Parse(_json)` (`none` = NULL).  The three `subst_env_var` calls
at user_mapper.c:84-86 pass the arguments in swapped order — the global
entry buffer is the SOURCE and the cJSON string the destination — so
they read the (empty) C string in the zeroed global buffer, write
nothing, and the entry slots are never populated: on success only
`num_mappings` changes.  Every failing branch resets `global` to `{0}`. -/
def user_mapping_init (cfgP : Option CJson) (_env : List Char → Option (List Char))
    (st : UserState) : UserState × Option MapErr :=
  match cfgP with
  | none => (emptyUserState, some .parseError)
  | some cfg =>
    if ¬ cJSON_IsObject cfg then (emptyUserState, some .schemaError)
    else
      let k := cJSON_GetArraySize cfg
      if k > MAX_NUM_MAPPINGS then (emptyUserState, some .capacityExceeded)
      else if (childPairs cfg).all (fun kv => userItemOk kv.2) then
        -- swapped-argument subst_env_var calls: sources are the C strings
        -- read from the zeroed entry buffers, so no state is written and
        -- getenv is never consulted (the sources contain no placeholder)
        ({ mappings := st.mappings, num_mappings := k }, none)
      else (emptyUserState, some .schemaError)

/-- `user_mapping_irods_username` (user_mapper.c:94-108); pure in the
state for the same reason as `bucket_mapping_collection`. -/
def user_mapping_irods_username (st : UserState) (k : List Char) :
    Except MapErr (List Char) :=
  if st.num_mappings = 0 then .error .notInit
  else
    scanEntries (fun i => (st.mappings i).s3_access_key_id)
      (fun i => (st.mappings i).irods_username) k 0 st.num_mappings

/-- `user_mapping_s3_secret_key` (user_mapper.c:110-124). -/
def user_mapping_s3_secret_key (st : UserState) (k : List Char) :
    Except MapErr (List Char) :=
  if st.num_mappings = 0 then .error .notInit
  else
    scanEntries (fun i => (st.mappings i).s3_access_key_id)
      (fun i => (st.mappings i).s3_secret_key) k 0 st.num_mappings

/-- `user_mapping_close` (user_mapper.c:126-129). -/
def user_mapping_close (_st : UserState) : UserState × Int :=
  (emptyUserState, 0)

/-! ## The config loader (plugin_tools.c) -/

/-- The key `"file_path"`. -/
def filePathS : List Char := "file_path".toList

/-- `read_plugin_config_file` (plugin_tools.c:14-57).  `srcParsed` is the
result of `cJSON_Parse` on the argument string (`none` = NULL);
`fileParse p` composes the filesystem collaborator with `cJSON_Parse` on
the full contents of the file at path `p` (`none` covers fopen failure
and unparseable contents).  The function requires an object with a
`file_path` member (located case-insensitively, other members are not
rejected) that is a string; every other source is an error (NULL) — no
branch parses the source itself as the configuration. -/
def read_plugin_config_file (srcParsed : Option CJson)
    (fileParse : List Char → Option CJson) : Option CJson :=
  match srcParsed with
  | none => none
  | some cfg =>
    if ¬ cJSON_IsObject cfg then none
    else if ¬ hasItemCI cfg filePathS then none
    else
      match getItemCI cfg filePathS with
      | some (.jstr p) => fileParse p
      | _ => none

/-- The spec-side reformulation of the loader (amended claim for the
config-source branch): succeed exactly on an object source whose
(case-insensitively located) `file_path` member is a string, returning
the parse of that file; fail on every other source — never parse the
source itself as the configuration. -/
def configLoaderAmended (srcParsed : Option CJson)
    (fileParse : List Char → Option CJson) : Option CJson :=
  match srcParsed with
  | some cfg =>
    if cJSON_IsObject cfg then
      match getItemCI cfg filePathS with
      | some (.jstr p) => fileParse p
      | _ => none
    else none
  | none => none

/-! ## Concrete inputs used by counterexamples and witnesses -/

/-- An environment in which every variable is unset. -/
def envNone : List Char → Option (List Char) := fun _ => none

/-- A buffer holding the bytes of `t` followed by NUL padding. -/
def strToBuf (t : List Char) : Buffer := fun i => t.getD i nulC

/-- The text `${AK}`. -/
def akPh : List Char := ['$', '{', 'A', 'K', '}']

/-- The text `${SK}`. -/
def skPh : List Char := ['$', '{', 'S', 'K', '}']

/-- The text `${UN}`. -/
def unPh : List Char := ['$', '{', 'U', 'N', '}']

/-- Environment `AK=K1, SK=S1, UN=U1`. -/
def envC1 : List Char → Option (List Char) := fun n =>
  if n = ['A', 'K'] then some ['K', '1']
  else if n = ['S', 'K'] then some ['S', '1']
  else if n = ['U', 'N'] then some ['U', '1']
  else none

/-- The user-mapping configuration
`{"${AK}": {"secret_key": "${SK}", "username": "${UN}"}}`. -/
def cfgC1 : CJson :=
  .jobj [(akPh, .jobj [(secretKeyS, .jstr skPh), (usernameS, .jstr unPh)])]

/-- The user table after `user_mapping_init` on `cfgC1` under `envC1`. -/
def stC1 : UserState := (user_mapping_init (some cfgC1) envC1 emptyUserState).1

/-- Bucket configuration `{"k": "vv"}`. -/
def cfgA2 : CJson := .jobj [(['k'], .jstr ['v', 'v'])]

/-- Bucket configuration `{"k": "w"}`. -/
def cfgB2 : CJson := .jobj [(['k'], .jstr ['w'])]

/-- The bucket table after `init` on `cfgA2` from the zeroed state. -/
def stA2 : BucketState := (bucket_mapping_init (some cfgA2) envNone emptyBucketState).1

/-- The bucket table after a second `init`, on `cfgB2`. -/
def stB2 : BucketState := (bucket_mapping_init (some cfgB2) envNone stA2).1

/-- A 1025-character key: one character beyond `MAX_STR_LEN`, so
`subst_env_var` on it fails its pre-scan length check. -/
def keyLong : List Char := List.replicate 1025 'a'

/-- Bucket configuration whose single key makes `subst_env_var` fail. -/
def cfgC4 : CJson := .jobj [(keyLong, .jstr ['v'])]

/-- A valid JSON object with no `file_path` member. -/
def cfgC5 : CJson := .jobj [(['a'], .jstr ['b'])]

/-- An object configuration with nine key/value pairs. -/
def cfg9 : CJson :=
  .jobj [(['0'], .jnull), (['1'], .jnull), (['2'], .jnull), (['3'], .jnull),
         (['4'], .jnull), (['5'], .jnull), (['6'], .jnull), (['7'], .jnull),
         (['8'], .jnull)]

/-- A one-entry bucket table used as a lookup witness state. -/
def stW7b : BucketState := ⟨fun _ => ⟨strToBuf ['k'], strToBuf ['c']⟩, 1⟩

/-- A one-entry user table used as a lookup witness state. -/
def stW7u : UserState := ⟨fun _ => ⟨strToBuf ['k'], strToBuf ['s'], strToBuf ['u']⟩, 1⟩

/-- The exact write log `subst_env_var` produces on
`pre ++ "${name}" ++ suffix` when `name` is unset in the environment and
neither `pre` nor `suffix` contains a placeholder: `pre` verbatim, then
the bare name plus one NUL byte (leaving a two-byte gap), then `suffix`
three positions further along. -/
def c10log (pre name suffix : List Char) : List (Nat × Char) :=
  writeSeg 0 pre ++
  writeSeg pre.length (name ++ [nulC]) ++
  writeSeg (pre.length + name.length + 3) suffix

/-! ## Supporting lemmas: write logs and buffers -/

theorem writeSeg_mem {t : List Char} :
    ∀ {p q : Nat} {c : Char}, (q, c) ∈ writeSeg p t → p ≤ q ∧ q < p + t.length := by
  induction t with
  | nil => intro p q c h; simp [writeSeg] at h
  | cons d t ih =>
    intro p q c h
    simp only [writeSeg, List.mem_cons, Prod.mk.injEq] at h
    rcases h with ⟨rfl, _⟩ | h
    · simp
    · have := ih h
      simp only [List.length_cons]
      omega

theorem writeSeg_append (p : Nat) (a b : List Char) :
    writeSeg p (a ++ b) = writeSeg p a ++ writeSeg (p + a.length) b := by
  induction a generalizing p with
  | nil => simp [writeSeg]
  | cons c a ih =>
    show (p, c) :: writeSeg (p + 1) (a ++ b) =
      ((p, c) :: writeSeg (p + 1) a) ++ writeSeg (p + (a.length + 1)) b
    rw [ih (p + 1), List.cons_append]
    have h : p + 1 + a.length = p + (a.length + 1) := by omega
    rw [h]

theorem applyWrites_append (b : Buffer) (l1 l2 : List (Nat × Char)) :
    applyWrites b (l1 ++ l2) = applyWrites (applyWrites b l1) l2 := by
  simp [applyWrites, List.foldl_append]

theorem applyWrites_writeSeg (t : List Char) :
    ∀ (b : Buffer) (p i : Nat),
      applyWrites b (writeSeg p t) i =
        if p ≤ i ∧ i < p + t.length then t.getD (i - p) nulC else b i := by
  induction t with
  | nil =>
    intro b p i
    rw [if_neg (by simp)]
    rfl
  | cons c t ih =>
    intro b p i
    show applyWrites (fun j => if j = p then c else b j) (writeSeg (p + 1) t) i = _
    rw [ih]
    simp only [List.length_cons]
    by_cases h1 : i = p
    · have hc1 : ¬(p + 1 ≤ i ∧ i < p + 1 + t.length) := by omega
      have hc2 : p ≤ i ∧ i < p + (t.length + 1) := by omega
      rw [if_neg hc1, if_pos hc2]
      simp [h1]
    · by_cases h2 : p + 1 ≤ i ∧ i < p + 1 + t.length
      · have hc3 : p ≤ i ∧ i < p + (t.length + 1) := by omega
        rw [if_pos h2, if_pos hc3]
        have h3 : i - p = (i - (p + 1)) + 1 := by omega
        rw [h3]
        simp [List.getD_cons_succ]
      · have hc4 : ¬(p ≤ i ∧ i < p + (t.length + 1)) := by omega
        rw [if_neg h2, if_neg hc4]
        simp [h1]

theorem readCStrN_agree (t : List Char) :
    ∀ (b : Buffer) (n : Nat), nulC ∉ t → t.length < n →
      (∀ i, i ≤ t.length → b i = (t ++ [nulC]).getD i nulC) →
      readCStrN b n = t := by
  induction t with
  | nil =>
    intro b n _ hn hag
    cases n with
    | zero => omega
    | succ n =>
      have h0 : b 0 = nulC := by simpa using hag 0 (by simp)
      simp [readCStrN, h0]
  | cons c t ih =>
    intro b n hnul hn hag
    cases n with
    | zero => omega
    | succ n =>
      have h0 : b 0 = c := by simpa using hag 0 (by simp)
      have hc : c ≠ nulC := fun h => hnul (h ▸ List.mem_cons_self c t)
      have hrec : readCStrN (fun j => b (j + 1)) n = t := by
        refine ih _ n (fun h => hnul (List.mem_cons_of_mem _ h)) (by simpa using hn) ?_
        intro i hi
        have := hag (i + 1) (by simpa using Nat.succ_le_succ hi)
        simpa using this
      simp only [readCStrN, h0]
      rw [if_neg (by simp [hc]), hrec]

/-! ## Supporting lemmas: strncmp against a buffer -/

theorem strncmpEq_iff :
    ∀ (n : Nat) (b : Buffer) (k : List Char),
      (readCStrN b n).length < n → nulC ∉ k →
      (strncmpEq b k n = true ↔ readCStrN b n = k) := by
  intro n
  induction n with
  | zero => intro b k h _; simp [readCStrN] at h
  | succ n ih =>
    intro b k hlen hk
    by_cases h0 : b 0 = nulC
    · have hr : readCStrN b (n + 1) = [] := by simp [readCStrN, h0]
      cases k with
      | nil => simp [strncmpEq, h0, hr]
      | cons c k =>
        have hc : c ≠ nulC := fun h => hk (h ▸ List.mem_cons_self c k)
        have hbc : b 0 ≠ c := by rw [h0]; exact fun h => hc h.symm
        simp [strncmpEq, hr, hbc]
    · have hr : readCStrN b (n + 1) = b 0 :: readCStrN (fun j => b (j + 1)) n := by
        simp [readCStrN, h0]
      cases k with
      | nil => simp [strncmpEq, hr, h0]
      | cons c k =>
        by_cases hbc : b 0 = c
        · have hc : c ≠ nulC := hbc ▸ h0
          have hlen2 : (readCStrN (fun j => b (j + 1)) n).length < n := by
            rw [hr] at hlen
            simpa using hlen
          have ihh := ih (fun j => b (j + 1)) k hlen2 (fun h => hk (List.mem_cons_of_mem _ h))
          simp [strncmpEq, hr, hbc, hc, ihh]
        · simp [strncmpEq, hr, hbc, fun h : c = b 0 => hbc h.symm]

/-! ## Supporting lemmas: strstr -/

theorem findStr_db_none {l : List Char} (h : '$' ∉ l) :
    findStr dollarBrace l = none := by
  induction l with
  | nil => rfl
  | cons c l ih =>
    have hc : c ≠ '$' := fun hh => h (hh ▸ List.mem_cons_self c l)
    have hnp : ¬ (dollarBrace.isPrefixOf (c :: l) = true) := by
      simp only [dollarBrace, List.isPrefixOf, Bool.and_eq_true, beq_iff_eq]
      exact fun hh => hc (hh.1.symm)
    simp only [findStr]
    rw [if_neg hnp, ih (fun hm => h (List.mem_cons_of_mem _ hm))]
    rfl

theorem findStr_db_append {pre : List Char} (l : List Char) (h : '$' ∉ pre) :
    findStr dollarBrace (pre ++ '$' :: '{' :: l) = some pre.length := by
  induction pre with
  | nil =>
    simp only [List.nil_append]
    have hp : dollarBrace.isPrefixOf ('$' :: '{' :: l) = true := by
      simp [dollarBrace, List.isPrefixOf]
    simp only [findStr]
    rw [if_pos hp]
    rfl
  | cons c p ih =>
    have hc : c ≠ '$' := fun hh => h (hh ▸ List.mem_cons_self c p)
    have hnp : ¬ (dollarBrace.isPrefixOf (c :: (p ++ '$' :: '{' :: l)) = true) := by
      simp only [dollarBrace, List.isPrefixOf, Bool.and_eq_true, beq_iff_eq]
      exact fun hh => hc (hh.1.symm)
    simp only [List.cons_append, findStr, List.append_eq]
    rw [if_neg hnp, ih (fun hm => h (List.mem_cons_of_mem _ hm))]
    rfl

theorem findStr_close_append {xs : List Char} (rest : List Char) (h : '}' ∉ xs) :
    findStr [ '}' ] (xs ++ '}' :: rest) = some xs.length := by
  induction xs with
  | nil =>
    simp only [List.nil_append]
    have hp : List.isPrefixOf [ '}' ] ('}' :: rest) = true := by
      simp [List.isPrefixOf]
    simp only [findStr]
    rw [if_pos hp]
    rfl
  | cons c p ih =>
    have hc : c ≠ '}' := fun hh => h (hh ▸ List.mem_cons_self c p)
    have hnp : ¬ (List.isPrefixOf [ '}' ] (c :: (p ++ '}' :: rest)) = true) := by
      simp only [List.isPrefixOf, Bool.and_eq_true, beq_iff_eq]
      exact fun hh => hc (hh.1.symm)
    simp only [List.cons_append, findStr, List.append_eq]
    rw [if_neg hnp, ih (fun hm => h (List.mem_cons_of_mem _ hm))]
    rfl

/-! ## Supporting lemmas: the subst_env_var loop -/

theorem substLoop_stop (env : List Char → Option (List Char)) (s : List Char)
    (maxLen fuel sPos substPos : Nat)
    (h : ¬ (sPos < s.length ∧ substPos < maxLen)) :
    substLoop env s maxLen fuel sPos substPos = ([], substPos) := by
  cases fuel with
  | zero => rfl
  | succ f =>
    simp only [substLoop]
    rw [if_neg h]

theorem substLoop_verbatim (env : List Char → Option (List Char)) (s : List Char)
    (maxLen fuel sPos substPos : Nat)
    (h1 : sPos < s.length) (h2 : substPos < maxLen)
    (hf : findStr dollarBrace (s.drop sPos) = none) :
    substLoop env s maxLen (fuel + 1) sPos substPos =
      (writeSeg substPos (s.drop sPos), substPos + (s.length - sPos)) := by
  simp only [substLoop]
  rw [if_pos ⟨h1, h2⟩, hf]

theorem substLoop_verbatim2 (env : List Char → Option (List Char)) (s : List Char)
    (maxLen fuel sPos substPos : Nat) (hfuel : fuel ≠ 0)
    (h1 : sPos < s.length) (h2 : substPos < maxLen)
    (hf : findStr dollarBrace (s.drop sPos) = none) :
    substLoop env s maxLen fuel sPos substPos =
      (writeSeg substPos (s.drop sPos), substPos + (s.length - sPos)) := by
  cases fuel with
  | zero => exact absurd rfl hfuel
  | succ f => exact substLoop_verbatim env s maxLen f sPos substPos h1 h2 hf

theorem substLoop_miss (env : List Char → Option (List Char)) (s : List Char)
    (maxLen fuel sPos substPos bOff eOff : Nat)
    (h1 : sPos < s.length) (h2 : substPos < maxLen)
    (hb : findStr dollarBrace (s.drop sPos) = some bOff)
    (he : findStr [ '}' ] (s.drop (sPos + bOff)) = some eOff)
    (hmiss : env ((s.drop (sPos + bOff + 2)).take (eOff - 2)) = none) :
    substLoop env s maxLen (fuel + 1) sPos substPos =
      (writeSeg substPos ((s.drop sPos).take bOff) ++
        writeSeg (substPos + bOff)
          (((s.drop (sPos + bOff + 2)).take (eOff - 2)) ++ [nulC]) ++
        (substLoop env s maxLen fuel (sPos + bOff + eOff + 1)
          (substPos + bOff + eOff + 1)).1,
       (substLoop env s maxLen fuel (sPos + bOff + eOff + 1)
          (substPos + bOff + eOff + 1)).2) := by
  simp only [substLoop]
  rw [if_pos ⟨h1, h2⟩]
  simp only [hb, he, hmiss]

/-! ## Supporting lemmas: the lookup scan -/

theorem scanEntries_eq (keyBuf valBuf : Nat → Buffer) (k : List Char) (hk : nulC ∉ k) :
    ∀ (r i : Nat),
      (∀ j, i ≤ j → j < i + r → (readCStrN (keyBuf j) MAX_STR_LEN).length < MAX_STR_LEN) →
      scanEntries keyBuf valBuf k i r =
        match (List.range' i r).find?
            (fun j => readCStrN (keyBuf j) MAX_STR_LEN == k) with
        | some j => .ok (readCStrN (valBuf j) MAX_STR_LEN)
        | none => .error .notFound := by
  intro r
  induction r with
  | zero => intro i _; rfl
  | succ r ih =>
    intro i hwf
    have hiff := strncmpEq_iff MAX_STR_LEN (keyBuf i) k (hwf i le_rfl (by omega)) hk
    have hrange : List.range' i (r + 1) = i :: List.range' (i + 1) r := rfl
    have hscan : scanEntries keyBuf valBuf k i (r + 1) =
        if strncmpEq (keyBuf i) k MAX_STR_LEN then
          .ok (readCStrN (valBuf i) MAX_STR_LEN)
        else scanEntries keyBuf valBuf k (i + 1) r := rfl
    rw [hscan, hrange]
    by_cases hm : readCStrN (keyBuf i) MAX_STR_LEN = k
    · rw [if_pos (hiff.mpr hm)]
      have hfind : (i :: List.range' (i + 1) r).find?
          (fun j => readCStrN (keyBuf j) MAX_STR_LEN == k) = some i := by
        simp [List.find?, hm]
      rw [hfind]
    · rw [if_neg (fun h => hm (hiff.mp h))]
      have hfind : (i :: List.range' (i + 1) r).find?
          (fun j => readCStrN (keyBuf j) MAX_STR_LEN == k) =
          (List.range' (i + 1) r).find?
            (fun j => readCStrN (keyBuf j) MAX_STR_LEN == k) := by
        simp [List.find?_cons, hm]
      rw [hfind, ih (i + 1) (fun j hj1 hj2 => hwf j (by omega) (by omega))]

/-! ## The claims -/

/-- C1: the claim states that after a successful `user_mapping_init` on
`{"${AK}": {"secret_key": "${SK}", "username": "${UN}"}}` with `AK=K1,
SK=S1, UN=U1`, `user_mapping_irods_username("K1")` returns `"U1"` and
`user_mapping_s3_secret_key("K1")` returns `"S1"`.  In the code the
`subst_env_var` arguments at user_mapper.c:84-86 are swapped (the table
buffer is the source, the JSON string the destination), so init succeeds
but stores nothing: both lookups for `"K1"` fail, and the entry actually
reachable is the empty-string key mapped to empty strings. -/
theorem c1_user_init_stores_nothing :
    (user_mapping_init (some cfgC1) envC1 emptyUserState).2 = none ∧
    user_mapping_irods_username stC1 (['K', '1']) = .error .notFound ∧
    user_mapping_s3_secret_key stC1 (['K', '1']) = .error .notFound ∧
    user_mapping_irods_username stC1 ([] : List Char) = .ok [] :=
  ⟨rfl, rfl, rfl, rfl⟩

/-- C2: the claim states that a second successful `init` fully replaces
the first.  In the code `subst_env_var` never writes a terminating NUL
and `bucket_mapping_init` does not clear the entry buffers on the
success path, so after `init {"k": "vv"}` followed by `init {"k": "w"}`
the lookup of `"k"` yields `"wv"` — the trailing byte of the first
configuration's value is still observable — instead of `"w"`. -/
theorem c2_second_init_leaks_prior_bytes :
    (bucket_mapping_init (some cfgA2) envNone emptyBucketState).2 = none ∧
    (bucket_mapping_init (some cfgB2) envNone stA2).2 = none ∧
    bucket_mapping_collection stB2 (['k']) = .ok (['w', 'v']) ∧
    bucket_mapping_list stB2 = .ok [((['k']), (['w', 'v']))] ∧
    (['w', 'v'] : List Char) ≠ ['w'] :=
  ⟨rfl, rfl, rfl, rfl, by decide⟩

/-- C3: the claim states the output position never reaches `maxLen` with
a write, i.e. no copy step writes at or past offset `maxLen`.  On input
`"abc"` with `maxLen = 2` (both pre-scan checks pass) the single
verbatim `memcpy` writes three bytes, the last one at offset `2 ≥
maxLen`: the `subst_pos < max_len` test is only evaluated at the head of
the loop and does not bound the individual copy. -/
theorem c3_copy_writes_past_maxLen :
    subst_env_var envNone (['a', 'b', 'c']) 2 =
      some ([(0, 'a'), (1, 'b'), (2, 'c')], 3) ∧
    ((2, 'c') ∈ [((0 : Nat), 'a'), (1, 'b'), (2, 'c')] ∧ 2 ≥ 2) :=
  ⟨rfl, by decide⟩

/-- C9: `close` unconditionally resets either table to the zeroed state
and returns 0; afterwards every lookup (and the bucket list) fails with
the not-initialized error, and `close` is idempotent. -/
theorem c9_close_resets_and_idempotent (sb : BucketState) (su : UserState)
    (k : List Char) :
    bucket_mapping_close sb = (emptyBucketState, 0) ∧
    user_mapping_close su = (emptyUserState, 0) ∧
    bucket_mapping_collection (bucket_mapping_close sb).1 k = .error .notInit ∧
    bucket_mapping_list (bucket_mapping_close sb).1 = .error .notInit ∧
    user_mapping_irods_username (user_mapping_close su).1 k = .error .notInit ∧
    user_mapping_s3_secret_key (user_mapping_close su).1 k = .error .notInit ∧
    bucket_mapping_close (bucket_mapping_close sb).1 = bucket_mapping_close sb ∧
    user_mapping_close (user_mapping_close su).1 = user_mapping_close su :=
  ⟨rfl, rfl, rfl, rfl, rfl, rfl, rfl, rfl⟩

/-- C6: an object configuration with more than `MAX_NUM_MAPPINGS = 8`
top-level pairs makes `init` of either table fail with the
capacity-exceeded error and leaves the table zeroed, after which every
lookup fails with the not-initialized error. -/
theorem c6_capacity_exceeded (cfg : CJson) (env : List Char → Option (List Char))
    (stb : BucketState) (stu : UserState) (k : List Char)
    (hobj : cJSON_IsObject cfg = true)
    (hcap : cJSON_GetArraySize cfg > MAX_NUM_MAPPINGS) :
    bucket_mapping_init (some cfg) env stb = (emptyBucketState, some .capacityExceeded) ∧
    user_mapping_init (some cfg) env stu = (emptyUserState, some .capacityExceeded) ∧
    bucket_mapping_collection emptyBucketState k = .error .notInit ∧
    bucket_mapping_list emptyBucketState = .error .notInit ∧
    user_mapping_irods_username emptyUserState k = .error .notInit ∧
    user_mapping_s3_secret_key emptyUserState k = .error .notInit := by
  refine ⟨?_, ?_, rfl, rfl, rfl, rfl⟩
  · simp only [bucket_mapping_init]
    rw [if_pos hcap]
  · simp only [user_mapping_init]
    rw [if_neg (by simp [hobj]), if_pos hcap]

/-- Witness for C6: a nine-pair object. -/
theorem c6_capacity_exceeded_witness :
    bucket_mapping_init (some cfg9) envNone emptyBucketState =
      (emptyBucketState, some .capacityExceeded) ∧
    user_mapping_init (some cfg9) envNone emptyUserState =
      (emptyUserState, some .capacityExceeded) ∧
    bucket_mapping_collection emptyBucketState (['x']) = .error .notInit ∧
    bucket_mapping_list emptyBucketState = .error .notInit ∧
    user_mapping_irods_username emptyUserState (['x']) = .error .notInit ∧
    user_mapping_s3_secret_key emptyUserState (['x']) = .error .notInit :=
  c6_capacity_exceeded cfg9 envNone emptyBucketState emptyUserState (['x'])
    rfl (by decide)

/-- C5 counterexample: the claim states that a source which is not a
`file_path` wrapper is parsed directly and its root returned.  For the
perfectly valid object source `{"a": "b"}` the loader instead fails
(returns NULL): there is no direct-parse branch. -/
theorem c5_loader_rejects_plain_config :
    read_plugin_config_file (some cfgC5) (fun _ => none) = none ∧
    read_plugin_config_file (some cfgC5) (fun _ => none) ≠ some cfgC5 := by
  have h : read_plugin_config_file (some cfgC5) (fun _ => none) = none := rfl
  exact ⟨h, by rw [h]; exact fun hh => Option.noConfusion hh⟩

/-- C5 (amended): the loader succeeds exactly on an object source whose
case-insensitively located `file_path` member is a string, returning the
parsed contents of that file; every other source is an error, and the
source itself is never used as the configuration. -/
theorem c5_loader_requires_file_path (srcParsed : Option CJson)
    (fileParse : List Char → Option CJson) :
    read_plugin_config_file srcParsed fileParse =
      configLoaderAmended srcParsed fileParse := by
  cases srcParsed with
  | none => rfl
  | some cfg =>
    cases cfg with
    | jobj fs =>
      cases hget : getItemCI (.jobj fs) filePathS with
      | none =>
        simp [read_plugin_config_file, configLoaderAmended, cJSON_IsObject,
          hasItemCI, hget]
      | some j =>
        cases j <;>
          simp [read_plugin_config_file, configLoaderAmended, cJSON_IsObject,
            hasItemCI, hget]
    | jnull => rfl
    | jbool b => rfl
    | jnum n => rfl
    | jstr s => rfl
    | jarr items => rfl

/-- C4 (amended): every failing `init` of either kind leaves the table
in the zeroed state and reports the error — the parse, object-shape,
capacity and schema checks all reset `global` before returning 1; but a
`subst_env_var` failure is not one of these cases: its return value is
ignored, so it does not abort `init` (see the counterexample). -/
theorem c4_failed_init_resets (loaded cfgP : Option CJson)
    (env : List Char → Option (List Char)) (stb : BucketState) (stu : UserState) :
    ((bucket_mapping_init loaded env stb).2 ≠ none →
      (bucket_mapping_init loaded env stb).1 = emptyBucketState) ∧
    ((user_mapping_init cfgP env stu).2 ≠ none →
      (user_mapping_init cfgP env stu).1 = emptyUserState) := by
  constructor
  · intro h
    cases loaded with
    | none => rfl
    | some cfg =>
      simp only [bucket_mapping_init] at h ⊢
      by_cases hcap : cJSON_GetArraySize cfg > MAX_NUM_MAPPINGS
      · rw [if_pos hcap]
      · rw [if_neg hcap] at h ⊢
        cases hloop : bucketItemsLoop env (childPairs cfg) 0 stb.mappings with
        | some m => rw [hloop] at h; simp at h
        | none => rfl
  · intro h
    cases cfgP with
    | none => rfl
    | some cfg =>
      simp only [user_mapping_init] at h ⊢
      by_cases hobj : cJSON_IsObject cfg = true
      · rw [if_neg (not_not_intro hobj)] at h ⊢
        by_cases hcap : cJSON_GetArraySize cfg > MAX_NUM_MAPPINGS
        · rw [if_pos hcap]
        · rw [if_neg hcap] at h ⊢
          by_cases hall : (childPairs cfg).all (fun kv => userItemOk kv.2) = true
          · rw [if_pos hall] at h
            simp at h
          · rw [if_neg hall]
      · rw [if_pos hobj]

/-- Witness for C4 (amended): a NULL parse for the bucket table and a
non-object configuration for the user table, applied to non-empty
states. -/
theorem c4_failed_init_resets_witness :
    (bucket_mapping_init none envNone stA2).1 = emptyBucketState ∧
    (user_mapping_init (some (.jstr ['x'])) envNone stW7u).1 = emptyUserState :=
  ⟨(c4_failed_init_resets none (some (.jstr ['x'])) envNone stA2 stW7u).1
      (by simp [bucket_mapping_init]),
   (c4_failed_init_resets none (some (.jstr ['x'])) envNone stA2 stW7u).2
      (by simp [user_mapping_init, cJSON_IsObject])⟩

/-- C4 counterexample: the claim states that a failure of the
substitutor on any key or value aborts the whole `init` with an empty
table and an error.  With the 1025-character key of `cfgC4`,
`subst_env_var` fails its pre-scan length check, yet
`bucket_mapping_init` returns success with a populated table
(`num_mappings = 1`): the substitutor's return value is discarded at
bucket_mapper.c:52-53. -/
theorem c4_init_succeeds_despite_subst_failure :
    subst_env_var envNone keyLong MAX_STR_LEN = none ∧
    (bucket_mapping_init (some cfgC4) envNone emptyBucketState).2 = none ∧
    (bucket_mapping_init (some cfgC4) envNone emptyBucketState).1.num_mappings = 1 := by
  refine ⟨?_, rfl, rfl⟩
  have hlen : keyLong.length = 1025 := by
    rw [keyLong, List.length_replicate]
  simp only [subst_env_var, hlen, MAX_STR_LEN]
  norm_num

/-- C7: for any table state whose stored keys read back as strings
shorter than `MAX_STR_LEN` (true of every state the code can build
without overflowing a buffer) and any NUL-free key: lookup fails with
the not-initialized error exactly when `num_mappings = 0`; otherwise it
performs a linear scan in slot (insertion) order, returning the value of
the first entry whose stored key equals the argument exactly (the
`strncmp` with bound `MAX_STR_LEN` is full-string, case-sensitive
equality under the length hypothesis), or the not-found error if no
entry matches.  The embedded lookup functions are pure functions of the
state — the C functions only read `global` — so lookup cannot mutate the
table. -/
theorem c7_lookup_characterization (stb : BucketState) (stu : UserState)
    (k : List Char)
    (hwb : ∀ j, j < stb.num_mappings →
      (readCStrN ((stb.mappings j).bucket) MAX_STR_LEN).length < MAX_STR_LEN)
    (hwu : ∀ j, j < stu.num_mappings →
      (readCStrN ((stu.mappings j).s3_access_key_id) MAX_STR_LEN).length < MAX_STR_LEN)
    (hk : nulC ∉ k) :
    (bucket_mapping_collection stb k = .error .notInit ↔ stb.num_mappings = 0) ∧
    (stb.num_mappings ≠ 0 →
      bucket_mapping_collection stb k =
        match (List.range stb.num_mappings).find?
            (fun j => readCStrN ((stb.mappings j).bucket) MAX_STR_LEN == k) with
        | some j => .ok (readCStrN ((stb.mappings j).collection) MAX_STR_LEN)
        | none => .error .notFound) ∧
    (user_mapping_irods_username stu k = .error .notInit ↔ stu.num_mappings = 0) ∧
    (stu.num_mappings ≠ 0 →
      user_mapping_irods_username stu k =
        match (List.range stu.num_mappings).find?
            (fun j => readCStrN ((stu.mappings j).s3_access_key_id) MAX_STR_LEN == k) with
        | some j => .ok (readCStrN ((stu.mappings j).irods_username) MAX_STR_LEN)
        | none => .error .notFound) ∧
    (stu.num_mappings ≠ 0 →
      user_mapping_s3_secret_key stu k =
        match (List.range stu.num_mappings).find?
            (fun j => readCStrN ((stu.mappings j).s3_access_key_id) MAX_STR_LEN == k) with
        | some j => .ok (readCStrN ((stu.mappings j).s3_secret_key) MAX_STR_LEN)
        | none => .error .notFound) := by
  have hbscan := scanEntries_eq (fun i => (stb.mappings i).bucket)
      (fun i => (stb.mappings i).collection) k hk stb.num_mappings 0
      (fun j _ hj2 => hwb j (by omega))
  have huscan1 := scanEntries_eq (fun i => (stu.mappings i).s3_access_key_id)
      (fun i => (stu.mappings i).irods_username) k hk stu.num_mappings 0
      (fun j _ hj2 => hwu j (by omega))
  have huscan2 := scanEntries_eq (fun i => (stu.mappings i).s3_access_key_id)
      (fun i => (stu.mappings i).s3_secret_key) k hk stu.num_mappings 0
      (fun j _ hj2 => hwu j (by omega))
  refine ⟨?_, ?_, ?_, ?_, ?_⟩
  · constructor
    · intro h
      by_contra hne
      simp only [bucket_mapping_collection] at h
      rw [if_neg hne, hbscan] at h
      cases hf : (List.range' 0 stb.num_mappings).find?
          (fun j => readCStrN ((stb.mappings j).bucket) MAX_STR_LEN == k) with
      | some j => rw [hf] at h; simp at h
      | none => rw [hf] at h; simp at h
    · intro h
      simp [bucket_mapping_collection, h]
  · intro hne
    simp only [bucket_mapping_collection]
    rw [if_neg hne, hbscan, List.range_eq_range']
  · constructor
    · intro h
      by_contra hne
      simp only [user_mapping_irods_username] at h
      rw [if_neg hne, huscan1] at h
      cases hf : (List.range' 0 stu.num_mappings).find?
          (fun j => readCStrN ((stu.mappings j).s3_access_key_id) MAX_STR_LEN == k) with
      | some j => rw [hf] at h; simp at h
      | none => rw [hf] at h; simp at h
    · intro h
      simp [user_mapping_irods_username, h]
  · intro hne
    simp only [user_mapping_irods_username]
    rw [if_neg hne, huscan1, List.range_eq_range']
  · intro hne
    simp only [user_mapping_s3_secret_key]
    rw [if_neg hne, huscan2, List.range_eq_range']

/-- Witness for C7: one-entry tables with key `"k"`, looked up with
`"k"`. -/
theorem c7_lookup_characterization_witness :
    bucket_mapping_collection stW7b (['k']) = .ok (['c']) ∧
    user_mapping_irods_username stW7u (['k']) = .ok (['u']) ∧
    user_mapping_s3_secret_key stW7u (['k']) = .ok (['s']) := by
  have h := c7_lookup_characterization stW7b stW7u (['k'])
    (fun _ _ =>
      (by decide : (readCStrN (strToBuf ['k']) MAX_STR_LEN).length < MAX_STR_LEN))
    (fun _ _ =>
      (by decide : (readCStrN (strToBuf ['k']) MAX_STR_LEN).length < MAX_STR_LEN))
    (by decide)
  refine ⟨?_, ?_, ?_⟩
  · rw [h.2.1 (by decide)]
    rfl
  · rw [h.2.2.2.1 (by decide)]
    rfl
  · rw [h.2.2.2.2 (by decide)]
    rfl

/-- C8: with `NAME` unset in the environment (and `NAME` free of `}` and
NUL bytes), substituting the string `"${NAME}"` yields the bare name
with the brackets stripped — the unresolved placeholder is degraded to
its name rather than left untouched.  The general shape with text after
the placeholder is claim C10. -/
theorem c8_unresolved_placeholder_degrades (env : List Char → Option (List Char))
    (name : List Char) (h1 : '}' ∉ name) (h2 : nulC ∉ name)
    (h3 : env name = none) (h4 : name.length + 3 ≤ MAX_STR_LEN) :
    subst_result env ('$' :: '{' :: (name ++ [ '}' ])) MAX_STR_LEN = some name := by
  have hnm : '}' ∉ ('$' :: '{' :: name) := by
    intro hmem
    rcases List.mem_cons.mp hmem with hq | hmem2
    · exact absurd hq (by decide)
    · rcases List.mem_cons.mp hmem2 with hq | hmem3
      · exact absurd hq (by decide)
      · exact h1 hmem3
  have hslen : ('$' :: '{' :: (name ++ [ '}' ])).length = name.length + 3 := by
    simp
  have hb : findStr dollarBrace (('$' :: '{' :: (name ++ [ '}' ])).drop 0) = some 0 := by
    rw [List.drop_zero]
    have h5 := findStr_db_append (name ++ [ '}' ]) (show '$' ∉ ([] : List Char) by simp)
    simpa using h5
  have he : findStr [ '}' ] (('$' :: '{' :: (name ++ [ '}' ])).drop (0 + 0)) =
      some (name.length + 2) := by
    have h5 := findStr_close_append [] hnm
    simpa [Nat.add_assoc] using h5
  have hname : ((('$' :: '{' :: (name ++ [ '}' ])).drop (0 + 0 + 2)).take
      ((name.length + 2) - 2)) = name := by
    simp [List.take_left]
  have hmiss : env ((('$' :: '{' :: (name ++ [ '}' ])).drop (0 + 0 + 2)).take
      ((name.length + 2) - 2)) = none := by
    rw [hname]
    exact h3
  simp only [subst_result, subst_env_var]
  rw [if_neg (lt_irrefl MAX_STR_LEN), if_neg (by rw [hslen]; omega)]
  rw [substLoop_miss env ('$' :: '{' :: (name ++ [ '}' ])) MAX_STR_LEN
    (('$' :: '{' :: (name ++ [ '}' ])).length) 0 0 0 (name.length + 2)
    (by rw [hslen]; omega) (by decide) hb he hmiss]
  rw [substLoop_stop env ('$' :: '{' :: (name ++ [ '}' ])) MAX_STR_LEN
    (('$' :: '{' :: (name ++ [ '}' ])).length) (0 + 0 + (name.length + 2) + 1)
    (0 + 0 + (name.length + 2) + 1)
    (by simp only [hslen]; omega)]
  rw [hname]
  simp only [List.drop_zero, List.take_zero, writeSeg, List.nil_append,
    List.append_nil, Nat.zero_add]
  refine congrArg some (readCStrN_agree name _ MAX_STR_LEN h2 (by omega) ?_)
  intro i hi
  rw [applyWrites_writeSeg]
  rw [if_pos ⟨Nat.zero_le i, by simp only [List.length_append, List.length_singleton]; omega⟩]
  simp

/-- Witness for C8: `"${FOO}"` with `FOO` unset yields `"FOO"`. -/
theorem c8_unresolved_placeholder_degrades_witness :
    subst_result envNone ('$' :: '{' :: ((['F', 'O', 'O'] : List Char) ++ [ '}' ]))
      MAX_STR_LEN = some ['F', 'O', 'O'] :=
  c8_unresolved_placeholder_degrades envNone ['F', 'O', 'O']
    (by decide) (by decide) rfl (by decide)

/-- C10: on `pre ++ "${name}" ++ suffix` with `name` unset in the
environment (and no other placeholder present), the getenv-miss branch
writes only the bare name plus one NUL byte while advancing the output
position by `name.length + 3`.  Hence the complete write log is
`c10log`: it has no write at offsets `|pre| + |name| + 1` and
`|pre| + |name| + 2` (a two-byte unwritten gap), the byte at offset
`|pre| + |name|` is an embedded NUL, the following text `suffix` sits
three positions past the name, and the buffer read back as a C string
ends at the bare name: `pre ++ name`. -/
theorem c10_unresolved_gap (env : List Char → Option (List Char))
    (pre name suffix : List Char)
    (hp : '$' ∉ pre) (hpn : nulC ∉ pre)
    (h1 : '}' ∉ name) (h2 : nulC ∉ name) (h3 : env name = none)
    (hs : '$' ∉ suffix) (hsne : suffix ≠ [])
    (hlen : pre.length + name.length + 3 + suffix.length ≤ MAX_STR_LEN) :
    subst_env_var env (pre ++ '$' :: '{' :: (name ++ '}' :: suffix)) MAX_STR_LEN =
      some (c10log pre name suffix,
        pre.length + name.length + 3 + suffix.length) ∧
    (∀ q c, (q, c) ∈ c10log pre name suffix →
      q ≠ pre.length + name.length + 1 ∧ q ≠ pre.length + name.length + 2) ∧
    applyWrites freshBuf (c10log pre name suffix)
      (pre.length + name.length) = nulC ∧
    (∀ j, j < suffix.length →
      applyWrites freshBuf (c10log pre name suffix)
        (pre.length + name.length + 3 + j) = suffix.getD j nulC) ∧
    readCStrN (applyWrites freshBuf (c10log pre name suffix)) MAX_STR_LEN =
      pre ++ name := by
  have hsuf1 : 1 ≤ suffix.length := List.length_pos.mpr hsne
  have hnm : '}' ∉ ('$' :: '{' :: name) := by
    intro hmem
    rcases List.mem_cons.mp hmem with hq | hmem2
    · exact absurd hq (by decide)
    · rcases List.mem_cons.mp hmem2 with hq | hmem3
      · exact absurd hq (by decide)
      · exact h1 hmem3
  have hslen : (pre ++ '$' :: '{' :: (name ++ '}' :: suffix)).length =
      pre.length + name.length + 3 + suffix.length := by
    simp only [List.length_append, List.length_cons]
    omega
  have hcomb : writeSeg 0 pre ++ writeSeg pre.length (name ++ [nulC]) =
      writeSeg 0 (pre ++ (name ++ [nulC])) := by
    have h5 := writeSeg_append 0 pre (name ++ [nulC])
    rw [Nat.zero_add] at h5
    exact h5.symm
  -- the main loop computation
  have hb : findStr dollarBrace
      ((pre ++ '$' :: '{' :: (name ++ '}' :: suffix)).drop 0) = some pre.length := by
    rw [List.drop_zero]
    exact findStr_db_append (name ++ '}' :: suffix) hp
  have he : findStr [ '}' ]
      ((pre ++ '$' :: '{' :: (name ++ '}' :: suffix)).drop (0 + pre.length)) =
      some (name.length + 2) := by
    rw [Nat.zero_add]
    have hdropL : (pre ++ '$' :: '{' :: (name ++ '}' :: suffix)).drop pre.length =
        '$' :: '{' :: (name ++ '}' :: suffix) := List.drop_left pre _
    rw [hdropL]
    have h5 := findStr_close_append suffix hnm
    simpa [Nat.add_assoc] using h5
  have hdrop2 : (pre ++ '$' :: '{' :: (name ++ '}' :: suffix)).drop
      (0 + pre.length + 2) = name ++ '}' :: suffix := by
    have hsplit : pre ++ '$' :: '{' :: (name ++ '}' :: suffix) =
        (pre ++ ['$', '{']) ++ (name ++ '}' :: suffix) := by simp
    have hlen2 : 0 + pre.length + 2 = (pre ++ ['$', '{']).length := by simp
    rw [hsplit, hlen2]
    exact List.drop_left _ _
  have htake : ((pre ++ '$' :: '{' :: (name ++ '}' :: suffix)).drop
      (0 + pre.length + 2)).take ((name.length + 2) - 2) = name := by
    rw [hdrop2]
    simp [List.take_left]
  have hmiss : env (((pre ++ '$' :: '{' :: (name ++ '}' :: suffix)).drop
      (0 + pre.length + 2)).take ((name.length + 2) - 2)) = none := by
    rw [htake]
    exact h3
  have hdrop3 : (pre ++ '$' :: '{' :: (name ++ '}' :: suffix)).drop
      (0 + pre.length + (name.length + 2) + 1) = suffix := by
    have hsplit2 : pre ++ '$' :: '{' :: (name ++ '}' :: suffix) =
        (pre ++ '$' :: '{' :: (name ++ [ '}' ])) ++ suffix := by simp
    have hlen3 : 0 + pre.length + (name.length + 2) + 1 =
        (pre ++ '$' :: '{' :: (name ++ [ '}' ])).length := by
      simp only [List.length_append, List.length_cons, List.length_singleton,
        List.length_nil]
      omega
    rw [hsplit2, hlen3]
    exact List.drop_left _ _
  have hv0 : (pre ++ '$' :: '{' :: (name ++ '}' :: suffix)).length ≠ 0 := by
    rw [hslen]; omega
  have hg1 : (0 : Nat) < (pre ++ '$' :: '{' :: (name ++ '}' :: suffix)).length := by
    rw [hslen]; omega
  have hv1 : 0 + pre.length + (name.length + 2) + 1 <
      (pre ++ '$' :: '{' :: (name ++ '}' :: suffix)).length := by
    rw [hslen]; omega
  have hv2 : 0 + pre.length + (name.length + 2) + 1 < MAX_STR_LEN := by omega
  have hmain : subst_env_var env (pre ++ '$' :: '{' :: (name ++ '}' :: suffix))
      MAX_STR_LEN = some (c10log pre name suffix,
        pre.length + name.length + 3 + suffix.length) := by
    simp only [subst_env_var]
    rw [if_neg (lt_irrefl MAX_STR_LEN), if_neg (by rw [hslen]; omega)]
    rw [substLoop_miss env (pre ++ '$' :: '{' :: (name ++ '}' :: suffix)) MAX_STR_LEN
      ((pre ++ '$' :: '{' :: (name ++ '}' :: suffix)).length) 0 0
      pre.length (name.length + 2)
      hg1 (by decide) hb he hmiss]
    rw [substLoop_verbatim2 env (pre ++ '$' :: '{' :: (name ++ '}' :: suffix)) MAX_STR_LEN
      ((pre ++ '$' :: '{' :: (name ++ '}' :: suffix)).length)
      (0 + pre.length + (name.length + 2) + 1) (0 + pre.length + (name.length + 2) + 1)
      hv0 hv1 hv2
      (by rw [hdrop3]; exact findStr_db_none hs)]
    rw [htake, hdrop3]
    have htakeL : ((pre ++ '$' :: '{' :: (name ++ '}' :: suffix)).drop 0).take pre.length
        = pre := by
      rw [List.drop_zero]
      exact List.take_left pre _
    rw [htakeL, hslen]
    simp only [Nat.zero_add]
    have e1 : pre.length + (name.length + 2) + 1 = pre.length + name.length + 3 := by
      omega
    simp only [e1]
    have e2 : pre.length + name.length + 3 +
        (pre.length + name.length + 3 + suffix.length -
          (pre.length + name.length + 3)) =
        pre.length + name.length + 3 + suffix.length := by omega
    simp only [e2]
    simp [c10log]
  refine ⟨hmain, ?_, ?_, ?_, ?_⟩
  · -- the two-byte gap: no write lands at |pre|+|name|+1 or +2
    intro q c hqc
    simp only [c10log] at hqc
    rcases List.mem_append.mp hqc with hqc12 | hqc3
    · rcases List.mem_append.mp hqc12 with hqc1 | hqc2
      · have hbd := writeSeg_mem hqc1
        omega
      · have hbd := writeSeg_mem hqc2
        simp only [List.length_append, List.length_singleton] at hbd
        omega
    · have hbd := writeSeg_mem hqc3
      omega
  · -- the embedded NUL terminator right after the bare name
    simp only [c10log]
    rw [applyWrites_append, applyWrites_append, applyWrites_writeSeg]
    rw [if_neg (by omega)]
    rw [applyWrites_writeSeg]
    rw [if_pos (by simp only [List.length_append, List.length_singleton]; omega)]
    have h6 : pre.length + name.length - pre.length = name.length := by omega
    rw [h6]
    rw [List.getD_append_right _ _ _ _ le_rfl]
    simp
  · -- the following text, three positions past the name
    intro j hj
    simp only [c10log]
    rw [applyWrites_append, applyWrites_append, applyWrites_writeSeg]
    rw [if_pos ⟨by omega, by omega⟩]
    have h6 : pre.length + name.length + 3 + j - (pre.length + name.length + 3) = j := by
      omega
    rw [h6]
  · -- read back as a C string: stops at the embedded NUL
    refine readCStrN_agree (pre ++ name) _ MAX_STR_LEN ?_ ?_ ?_
    · intro hmem
      rcases List.mem_append.mp hmem with h | h
      · exact hpn h
      · exact h2 h
    · simp only [List.length_append]
      omega
    · intro i hi
      have hi2 : i ≤ pre.length + name.length := by
        simpa using hi
      simp only [c10log]
      rw [applyWrites_append, applyWrites_append, applyWrites_writeSeg]
      rw [if_neg (by omega)]
      rw [← applyWrites_append, hcomb, applyWrites_writeSeg]
      rw [if_pos ⟨Nat.zero_le i,
        by simp only [List.length_append, List.length_singleton]; omega⟩]
      simp [List.append_assoc]

/-- Witness for C10: `"a${FOO}xy"` with `FOO` unset. -/
theorem c10_unresolved_gap_witness :
    subst_env_var envNone (['a'] ++ '$' :: '{' :: ((['F', 'O', 'O'] : List Char) ++
        '}' :: ['x', 'y'])) MAX_STR_LEN =
      some (c10log ['a'] ['F', 'O', 'O'] ['x', 'y'], 9) ∧
    (∀ q c, (q, c) ∈ c10log ['a'] ['F', 'O', 'O'] ['x', 'y'] → q ≠ 5 ∧ q ≠ 6) ∧
    applyWrites freshBuf (c10log ['a'] ['F', 'O', 'O'] ['x', 'y']) 4 = nulC ∧
    (∀ j, j < 2 →
      applyWrites freshBuf (c10log ['a'] ['F', 'O', 'O'] ['x', 'y']) (7 + j) =
        (['x', 'y'] : List Char).getD j nulC) ∧
    readCStrN (applyWrites freshBuf (c10log ['a'] ['F', 'O', 'O'] ['x', 'y']))
      MAX_STR_LEN = ['a'] ++ ['F', 'O', 'O'] :=
  c10_unresolved_gap envNone ['a'] ['F', 'O', 'O'] ['x', 'y']
    (by decide) (by decide) (by decide) (by decide) rfl (by decide) (by decide)
    (by decide)

end DTS
